import Mathlib

/-
Shallow embedding of aaronlehmann/manifest-check.

The repository has two source files: src/main.go and src/unnamed/part_000
(an older revision of the same program).  Both contain a `checkManifest`
function with an identical body, a `checkRepo` function, and a `main`
driver that resolves the repository list (from a `-repos` file or by
enumerating the registry) and scans every repository.

Modelling conventions:
  * `fmt.Printf` findings become elements of a `List String`, in print
    order, one line per element (the trailing newline is dropped).
  * Go's `error` return values become `Option String` (the error text)
    or `Except String` where a value is also produced.
  * `panic` in `main` is modelled as an `Except.error` outcome of the
    corresponding resolution / scan function.
  * `json.Unmarshal` is an external collaborator: it is passed in as an
    oracle `Decoder` mapping the `V1Compatibility` blob to the final
    contents of the zero-initialized local `im` variable together with
    the optional error message.
  * The registry (`distribution.Namespace` and the services derived from
    it) is an external collaborator, modelled by a `RegistryOracle` of
    functions keyed by repository name.
-/

namespace ManifestCheck

/-- The local `image` struct of `checkManifest` (src/main.go lines 45-48,
src/unnamed/part_000 lines 44-47): fields `ID` and `Parent` decoded from a
history entry's `V1Compatibility` blob. -/
structure Image where
  ID : String
  Parent : String
deriving DecidableEq, Repr

/-- A manifest history entry; the only field the program reads is
`V1Compatibility` (the opaque compatibility blob). -/
structure HistoryEntry where
  V1Compatibility : String
deriving DecidableEq, Repr

/-- The manifest as used by `checkManifest`: an `FSLayers` sequence (only
its length is read, so layers are kept opaque as strings) and a `History`
sequence.  Both Go types (`schema1.SignedManifest` in src/main.go and
`manifest.SignedManifest` in src/unnamed/part_000) expose exactly these
two fields to the program. -/
structure SignedManifest where
  FSLayers : List String
  History : List HistoryEntry
deriving DecidableEq, Repr

/-- Oracle for `json.Unmarshal([]byte(entry.V1Compatibility), &im)`: given
the blob, returns the final contents of the zero-initialized local `im`
after the call, together with the optional error message. -/
def Decoder : Type := String → Image × Option String

/-- Diagnostic line `"<repo>: no layers present"` (src/main.go line 37). -/
def noLayersFinding (r : String) : String :=
  r ++ ": no layers present"

/-- Diagnostic line `"<repo>: mismatched layers and history"`
(src/main.go line 41). -/
def mismatchFinding (r : String) : String :=
  r ++ ": mismatched layers and history"

/-- Diagnostic line `"<repo>: json unmarshal error: <msg>"`
(src/main.go line 57). -/
def unmarshalFinding (r msg : String) : String :=
  r ++ ": json unmarshal error: " ++ msg

/-- Diagnostic line `"<repo>: parent not below in manifest (parent ID <p>)"`
(src/main.go line 76). -/
def parentFinding (r p : String) : String :=
  r ++ ": parent not below in manifest (parent ID " ++ p ++ ")"

namespace MainGo

/-- The inner candidate scan of `checkManifest` (src/main.go lines 68-74):
`id` starts as `init` (the Go code initializes it to `""`), each candidate
overwrites `id` with its `ID`, and the loop breaks as soon as
`image.Parent == id`.  Returns the final value of `id`. -/
def scanForParent (parent : String) : List Image → String → String
  | [], id => id
  | c :: rest, _ => if parent = c.ID then c.ID else scanForParent parent rest c.ID

/-- The outer parent-link loop of `checkManifest` (src/main.go lines
64-79), phrased over suffixes: the call on `images.drop i` performs the
iterations for positions `i, i+1, ...`; the head iteration checks
`images[i]` against the candidate slice `images[i:]` (which is the whole
suffix, including position `i` itself) and prints the parent finding when
the scan's final `id` differs from `Parent`. -/
def parentCheck (r : String) : List Image → List String
  | [] => []
  | im :: rest =>
    (if im.Parent ≠ "" then
      (if im.Parent ≠ scanForParent im.Parent (im :: rest) "" then
        [parentFinding r im.Parent]
      else [])
    else []) ++ parentCheck r rest

/-- The decoding loop of `checkManifest` (src/main.go lines 53-61): for
each history entry, run the unmarshal oracle; a failing entry prints the
unmarshal finding; the resulting `im` is appended to `images` in every
case and decoding continues.  Returns (images, printed findings). -/
def decodeImages (dec : Decoder) (r : String) : List HistoryEntry → List Image × List String
  | [] => ([], [])
  | e :: rest =>
    ((dec e.V1Compatibility).1 :: (decodeImages dec r rest).1,
     (match (dec e.V1Compatibility).2 with
      | some msg => [unmarshalFinding r msg]
      | none => []) ++ (decodeImages dec r rest).2)

/-- Function `checkManifest` from src/main.go lines 35-82: returns the printed
findings in print order together with the Go `error` return value (the
function's only return statement is `return nil`, hence `none`). -/
def checkManifest (dec : Decoder) (r : String) (m : SignedManifest) : List String × Option String :=
  ((if m.FSLayers.length = 0 ∨ m.History.length = 0 then [noLayersFinding r] else []) ++
   (if m.FSLayers.length ≠ m.History.length then [mismatchFinding r] else []) ++
   (decodeImages dec r m.History).2 ++
   parentCheck r (decodeImages dec r m.History).1,
   none)

end MainGo

namespace Part000

/-- The inner candidate scan of `checkManifest` from src/unnamed/part_000
(lines 67-73), embedded separately from the src/main.go copy. -/
def scanForParent (parent : String) : List Image → String → String
  | [], id => id
  | c :: rest, _ => if parent = c.ID then c.ID else scanForParent parent rest c.ID

/-- The outer parent-link loop of `checkManifest` from
src/unnamed/part_000 (lines 63-78), phrased over suffixes as in the
src/main.go embedding. -/
def parentCheck (r : String) : List Image → List String
  | [] => []
  | im :: rest =>
    (if im.Parent ≠ "" then
      (if im.Parent ≠ scanForParent im.Parent (im :: rest) "" then
        [parentFinding r im.Parent]
      else [])
    else []) ++ parentCheck r rest

/-- The decoding loop of `checkManifest` from src/unnamed/part_000
(lines 52-60). -/
def decodeImages (dec : Decoder) (r : String) : List HistoryEntry → List Image × List String
  | [] => ([], [])
  | e :: rest =>
    ((dec e.V1Compatibility).1 :: (decodeImages dec r rest).1,
     (match (dec e.V1Compatibility).2 with
      | some msg => [unmarshalFinding r msg]
      | none => []) ++ (decodeImages dec r rest).2)

/-- Function `checkManifest` from src/unnamed/part_000 lines 34-81 (it takes a
`manifest.SignedManifest`, whose `FSLayers`/`History` fields are the same
shape as `schema1.SignedManifest`'s). -/
def checkManifest (dec : Decoder) (r : String) (m : SignedManifest) : List String × Option String :=
  ((if m.FSLayers.length = 0 ∨ m.History.length = 0 then [noLayersFinding r] else []) ++
   (if m.FSLayers.length ≠ m.History.length then [mismatchFinding r] else []) ++
   (decodeImages dec r m.History).2 ++
   parentCheck r (decodeImages dec r m.History).1,
   none)

end Part000

/-- Model of a line-level `panic` in `main`: the message of the Go `error`
value passed to `panic`. -/
inductive GoPanic where
  | panic : String → GoPanic
deriving DecidableEq, Repr

/-- The io.EOF case versus any other collaborator error, as distinguished by
`main` (src/main.go line 172). -/
inductive GoError where
  | eof : GoError
  | other : String → GoError
deriving DecidableEq, Repr

/-- Constant `maxRepos` (src/main.go line 31, src/unnamed/part_000
line 30). -/
def maxRepos : Nat := 500000

/-- The `+`-stripping step of the repos-file loop (src/main.go lines
162-164): if the first byte of the line is `'+'` (the first byte equals
`'+'` exactly when the first character does, `'+'` being ASCII), the line
loses that byte; `repoName[1:]` then drops exactly that one character. -/
def stripPlusByte (l : String) : String :=
  if l.data.head? = some '+' then String.mk l.data.tail else l

/-- The repos-file scanner loop (src/main.go lines 158-167, identical in
src/unnamed/part_000 lines 155-164): the file's lines are visited in
order; a line is kept only when non-empty (`len(repoName) > 0`, tested
before the `+` strip), and a kept line has a single leading `+`
stripped. -/
def readReposList : List String → List String
  | [] => []
  | l :: rest =>
    if 0 < l.data.length then stripPlusByte l :: readReposList rest
    else readReposList rest

/-- The registry-enumeration branch of `main` (src/main.go lines 168-180,
identical in src/unnamed/part_000 lines 165-177): `repos` is a buffer of
length `maxRepos` handed to the collaborator, modelled as an oracle from
the buffer length to (filled buffer, count, error).  A non-`io.EOF` error
panics, a count equal to `maxRepos` panics with `too many repositories`,
otherwise the buffer is truncated to the count.  A panic is modelled as
`Except.error` with the panic message. -/
def resolveReposRegistry (enum : Nat → List String × Nat × Option GoError) :
    Except String (List String) :=
  match (enum maxRepos).2.2 with
  | some (GoError.other msg) => Except.error ("unexpected error getting repo: " ++ msg)
  | _ =>
    if (enum maxRepos).2.1 = maxRepos then Except.error "too many repositories"
    else Except.ok ((enum maxRepos).1.take (enum maxRepos).2.1)

/-- Repository-name source resolution in `main` (src/main.go lines
150-180): a supplied repos file (`some lines`, the file's lines) takes
precedence; only when absent is the registry enumerated. -/
def resolveRepos (reposFile : Option (List String))
    (enum : Nat → List String × Nat × Option GoError) : Except String (List String) :=
  match reposFile with
  | some lines => Except.ok (readReposList lines)
  | none => resolveReposRegistry enum

/-- The registry collaborator as used by `checkRepo`: opening a
repository, obtaining its manifest service, listing tags, and fetching a
manifest by tag, each fallible, keyed by repository name.  Handles carry
no data the program reads, so they are `Unit`. -/
structure RegistryOracle where
  repository : String → Except String Unit
  manifests : String → Except String Unit
  tags : String → Except String (List String)
  getByTag : String → String → Except String SignedManifest

namespace MainGo

/-- The tag loop of `checkRepo` (src/main.go lines 103-112): for each tag
fetch the manifest; a fetch failure returns the wrapped error at once,
abandoning the remaining tags; otherwise the manifest's findings are
printed and, should `checkManifest` ever return a non-nil error, it would
be propagated.  Returns (stdout findings, returned error). -/
def checkTags (o : RegistryOracle) (dec : Decoder) (r : String) :
    List String → List String × Option String
  | [] => ([], none)
  | t :: rest =>
    match o.getByTag r t with
    | Except.error e => ([], some ("unexpected error getting manifest by tag: " ++ e))
    | Except.ok m =>
      match (checkManifest dec r m).2 with
      | some e => ((checkManifest dec r m).1, some e)
      | none => ((checkManifest dec r m).1 ++ (checkTags o dec r rest).1,
                 (checkTags o dec r rest).2)

/-- Function `checkRepo` (src/main.go lines 84-115): open the repository, get its
manifest service, list tags — each failure returns the wrapped error —
then run the tag loop.  The progress line printed to stderr at line 101
is independent of every claim and is elided from the model. -/
def checkRepo (o : RegistryOracle) (dec : Decoder) (r : String) :
    List String × Option String :=
  match o.repository r with
  | Except.error e => ([], some ("unexpected error getting repository: " ++ e))
  | Except.ok _ =>
    match o.manifests r with
    | Except.error e => ([], some ("unexpected error getting manifests: " ++ e))
    | Except.ok _ =>
      match o.tags r with
      | Except.error e => ([], some ("unexpected error getting tags: " ++ e))
      | Except.ok ts => checkTags o dec r ts

/-- The scan of `main` in src/main.go (lines 182-203): all repository
names are pushed through a channel drained by 30 workers; each worker
runs `checkRepo` and prints a returned error to stderr, then continues
with the next name.  The pool's nondeterministic interleaving is not
modelled: the names are processed in queue order, which fixes one
ordering of the (order-independent) per-repository contributions.
Returns (stdout findings, stderr error reports). -/
def scanRepos (o : RegistryOracle) (dec : Decoder) : List String → List String × List String
  | [] => ([], [])
  | r :: rest =>
    ((checkRepo o dec r).1 ++ (scanRepos o dec rest).1,
     (match (checkRepo o dec r).2 with
      | some e => [e]
      | none => []) ++ (scanRepos o dec rest).2)

end MainGo

namespace Part000

/-- The tag loop of `checkRepo` from src/unnamed/part_000 (lines
100-109), identical to the src/main.go one but calling this file's
`checkManifest`. -/
def checkTags (o : RegistryOracle) (dec : Decoder) (r : String) :
    List String → List String × Option String
  | [] => ([], none)
  | t :: rest =>
    match o.getByTag r t with
    | Except.error e => ([], some ("unexpected error getting manifest by tag: " ++ e))
    | Except.ok m =>
      match (checkManifest dec r m).2 with
      | some e => ((checkManifest dec r m).1, some e)
      | none => ((checkManifest dec r m).1 ++ (checkTags o dec r rest).1,
                 (checkTags o dec r rest).2)

/-- Function `checkRepo` from src/unnamed/part_000 (lines 83-112). -/
def checkRepo (o : RegistryOracle) (dec : Decoder) (r : String) :
    List String × Option String :=
  match o.repository r with
  | Except.error e => ([], some ("unexpected error getting repository: " ++ e))
  | Except.ok _ =>
    match o.manifests r with
    | Except.error e => ([], some ("unexpected error getting manifests: " ++ e))
    | Except.ok _ =>
      match o.tags r with
      | Except.error e => ([], some ("unexpected error getting tags: " ++ e))
      | Except.ok ts => checkTags o dec r ts

/-- The scan of `main` in src/unnamed/part_000 (lines 179-183): the
repositories are processed sequentially and a `checkRepo` error is passed
to `panic`, terminating the process; the remaining repositories are never
visited.  Returns (stdout findings printed before termination, the panic,
if any). -/
def scanRepos (o : RegistryOracle) (dec : Decoder) : List String → List String × Option GoPanic
  | [] => ([], none)
  | r :: rest =>
    match (checkRepo o dec r).2 with
    | some e => ((checkRepo o dec r).1, some (GoPanic.panic e))
    | none => ((checkRepo o dec r).1 ++ (scanRepos o dec rest).1, (scanRepos o dec rest).2)

end Part000

/-- Hypothesis predicate taken from the claim (not from the code): the
decoded images form a strictly linear chain — each image's `Parent`
equals the very next image's `ID`, and the last image's `Parent` is
empty. -/
def linearChain : List Image → Bool
  | [] => true
  | [im] => im.Parent == ""
  | im :: next :: rest => im.Parent == next.ID && linearChain (next :: rest)

/-- Enumeration oracle that fails with a non-EOF error. -/
def enumErr : Nat → List String × Nat × Option GoError :=
  fun _ => ([], 0, some (GoError.other "boom"))

/-- Enumeration oracle that fills the whole buffer (overflow case). -/
def enumFull : Nat → List String × Nat × Option GoError :=
  fun limit => (List.replicate limit "x", limit, none)

/-- Enumeration oracle returning three names and EOF. -/
def enumOk : Nat → List String × Nat × Option GoError :=
  fun _ => (["a", "b", "c"], 3, some GoError.eof)

/-- Decoder oracle that decodes everything to the empty image. -/
def decId : Decoder := fun _ => (Image.mk "" "", none)

/-- Registry oracle whose repository `"bad"` fails to open with `boom`;
every other repository opens, has the single tag `"t"`, and its manifest
is empty (so `checkManifest` prints `no layers present` for it). -/
def oFail : RegistryOracle where
  repository := fun r => if r = "bad" then Except.error "boom" else Except.ok ()
  manifests := fun _ => Except.ok ()
  tags := fun _ => Except.ok ["t"]
  getByTag := fun _ _ => Except.ok ⟨[], []⟩

/-- Registry oracle whose manifest fetches all fail with `gone`. -/
def oTagFail : RegistryOracle where
  repository := fun _ => Except.ok ()
  manifests := fun _ => Except.ok ()
  tags := fun _ => Except.ok ["t"]
  getByTag := fun _ _ => Except.error "gone"

end ManifestCheck

namespace ManifestCheck

/-- The inner scan's final `id` equals `Parent` exactly when some candidate's
`ID` equals `Parent` (the loop breaks at the first such candidate; otherwise
the final `id` is the last candidate's `ID`, which then differs from
`Parent`). -/
theorem scanForParent_eq_iff (p : String) :
    ∀ (cands : List Image) (init : String), cands ≠ [] →
      (MainGo.scanForParent p cands init = p ↔ ∃ c ∈ cands, c.ID = p) := by
  intro cands
  induction cands with
  | nil => intro init h; simp at h
  | cons c rest ih =>
    intro init _
    by_cases hc : p = c.ID
    · constructor
      · intro _; exact ⟨c, by simp, hc.symm⟩
      · intro _; simp [MainGo.scanForParent, hc]
    · cases rest with
      | nil =>
        simp only [MainGo.scanForParent, if_neg hc]
        constructor
        · intro hcid
          exact absurd hcid.symm hc
        · intro hex
          rcases hex with ⟨x, hx, hid⟩
          simp at hx
          subst hx
          exact absurd hid.symm hc
      | cons d rest' =>
        rw [MainGo.scanForParent, if_neg hc]
        rw [ih c.ID (by simp)]
        constructor
        · intro ⟨x, hx, hid⟩
          exact ⟨x, by simp [hx], hid⟩
        · intro ⟨x, hx, hid⟩
          rcases List.mem_cons.mp hx with hxc | hxr
          · subst hxc; exact absurd hid.symm hc
          · exact ⟨x, hxr, hid⟩

/-- One iteration of the parent-link loop: the head image contributes the
parent finding exactly when its `Parent` is non-empty and no candidate in
the whole suffix (head included) carries that `ID`. -/
theorem parentCheck_cons (r : String) (im : Image) (rest : List Image) :
    MainGo.parentCheck r (im :: rest) =
      (if im.Parent ≠ "" ∧ ¬ ∃ c ∈ im :: rest, c.ID = im.Parent then
        [parentFinding r im.Parent]
      else []) ++ MainGo.parentCheck r rest := by
  by_cases hp : im.Parent = ""
  · simp [MainGo.parentCheck, hp]
  · rw [MainGo.parentCheck]
    congr 1
    by_cases hex : ∃ c ∈ im :: rest, c.ID = im.Parent
    · have hscan : MainGo.scanForParent im.Parent (im :: rest) "" = im.Parent :=
        (scanForParent_eq_iff im.Parent (im :: rest) "" (by simp)).mpr hex
      rw [if_pos hp, if_neg (by simp [hscan]), if_neg (fun hc => hc.2 hex)]
    · have hscan : im.Parent ≠ MainGo.scanForParent im.Parent (im :: rest) "" := by
        intro hcontra
        exact hex ((scanForParent_eq_iff im.Parent (im :: rest) "" (by simp)).mp hcontra.symm)
      rw [if_pos hp, if_pos hscan, if_pos ⟨hp, hex⟩]

/-- C1: the parent-link findings of `checkManifest` are exactly
`parentCheck` over the decoded images (first conjunct, `pre` being the
layer/history and unmarshal findings), and for every 0-indexed position
`i` whose decoded image has a non-empty `Parent`, the finding for position
`i` — the head contribution of `parentCheck` on the suffix starting at `i`
— is emitted if and only if no decoded image at a position ≥ i (the
suffix `images.drop i`, which includes position `i` itself) has an `ID`
equal to that `Parent`.  The inner scan `scanForParent` visits the
candidates in order and stops at the first candidate whose `ID` equals
`Parent`. -/
theorem checkManifest_parent_finding_iff (dec : Decoder) (r : String)
    (m : SignedManifest) (images : List Image) (i : Nat)
    (himg : images = (MainGo.decodeImages dec r m.History).1)
    (h : i < images.length) (hp : images[i].Parent ≠ "") :
    (∃ pre, (MainGo.checkManifest dec r m).1 = pre ++ MainGo.parentCheck r images) ∧
    MainGo.parentCheck r (images.drop i) =
      (if ∀ c ∈ images.drop i, c.ID ≠ images[i].Parent then
        parentFinding r images[i].Parent :: MainGo.parentCheck r (images.drop (i + 1))
      else MainGo.parentCheck r (images.drop (i + 1))) := by
  constructor
  · refine ⟨(if m.FSLayers.length = 0 ∨ m.History.length = 0 then [noLayersFinding r] else []) ++
      (if m.FSLayers.length ≠ m.History.length then [mismatchFinding r] else []) ++
      (MainGo.decodeImages dec r m.History).2, ?_⟩
    rw [himg]
    simp [MainGo.checkManifest]
  · rw [List.drop_eq_getElem_cons h, parentCheck_cons]
    by_cases hex : ∃ c ∈ images[i] :: images.drop (i + 1), c.ID = images[i].Parent
    · rw [if_neg (fun hc => hc.2 hex), if_neg (fun hall => by
        rcases hex with ⟨c, hc, hid⟩
        exact hall c hc hid)]
      simp
    · rw [if_pos ⟨hp, hex⟩, if_pos (fun c hc hid => hex ⟨c, hc, hid⟩)]
      simp

/-- Witness for `checkManifest_parent_finding_iff`: a two-entry manifest
whose first image's parent `"b"` is found below it, evaluated at
position 0. -/
theorem checkManifest_parent_finding_iff_witness :
    ([Image.mk "a" "b", Image.mk "b" ""] =
      (MainGo.decodeImages (fun s => (if s = "x" then ⟨"a", "b"⟩ else ⟨"b", ""⟩, none)) "repo"
        [⟨"x"⟩, ⟨"y"⟩]).1) ∧
    (0 < ([Image.mk "a" "b", Image.mk "b" ""] : List Image).length) ∧
    (([Image.mk "a" "b", Image.mk "b" ""] : List Image)[0].Parent ≠ "") ∧
    ((∃ pre, (MainGo.checkManifest (fun s => (if s = "x" then ⟨"a", "b"⟩ else ⟨"b", ""⟩, none)) "repo"
        ⟨["l1", "l2"], [⟨"x"⟩, ⟨"y"⟩]⟩).1 =
          pre ++ MainGo.parentCheck "repo" [Image.mk "a" "b", Image.mk "b" ""]) ∧
      MainGo.parentCheck "repo" (([Image.mk "a" "b", Image.mk "b" ""] : List Image).drop 0) =
        (if ∀ c ∈ ([Image.mk "a" "b", Image.mk "b" ""] : List Image).drop 0,
            c.ID ≠ ([Image.mk "a" "b", Image.mk "b" ""] : List Image)[0].Parent then
          parentFinding "repo" ([Image.mk "a" "b", Image.mk "b" ""] : List Image)[0].Parent ::
            MainGo.parentCheck "repo" (([Image.mk "a" "b", Image.mk "b" ""] : List Image).drop (0 + 1))
        else MainGo.parentCheck "repo" (([Image.mk "a" "b", Image.mk "b" ""] : List Image).drop (0 + 1)))) :=
  ⟨by decide, by decide, by decide,
    checkManifest_parent_finding_iff _ "repo" ⟨["l1", "l2"], [⟨"x"⟩, ⟨"y"⟩]⟩
      [Image.mk "a" "b", Image.mk "b" ""] 0 (by decide) (by decide) (by decide)⟩

/-- C9: an image whose non-empty `Parent` equals its own `ID` never
contributes a parent finding, because the candidate slice `images[i:]`
starts with the image itself and the scan stops there (first conjunct,
stated for the suffix `im :: rest` beginning at the image's position);
and for an image at the last position (suffix `[im]`) with non-empty
`Parent`, no finding is emitted if and only if `Parent` equals its own
`ID` — the self-match is the only way out. -/
theorem parentCheck_self_parent (r : String) (im : Image) (rest : List Image)
    (hp : im.Parent ≠ "") :
    (im.Parent = im.ID → MainGo.parentCheck r (im :: rest) = MainGo.parentCheck r rest) ∧
    (MainGo.parentCheck r [im] = [] ↔ im.Parent = im.ID) := by
  constructor
  · intro hself
    rw [parentCheck_cons, if_neg]
    · simp
    · intro ⟨_, hnex⟩
      exact hnex ⟨im, by simp, hself.symm⟩
  · rw [parentCheck_cons]
    by_cases hself : im.Parent = im.ID
    · rw [if_neg (fun hc => hc.2 ⟨im, by simp, hself.symm⟩)]
      simp [MainGo.parentCheck, hself]
    · have hcond : ¬ ∃ c ∈ [im], c.ID = im.Parent := by
        intro ⟨c, hc, hid⟩
        simp at hc
        subst hc
        exact hself hid.symm
      rw [if_pos ⟨hp, hcond⟩]
      simp [MainGo.parentCheck, hself]

/-- Witness for `parentCheck_self_parent`: the image `{ID := "a",
Parent := "a"}` followed by one more image. -/
theorem parentCheck_self_parent_witness :
    ((Image.mk "a" "a").Parent ≠ "") ∧
    (((Image.mk "a" "a").Parent = (Image.mk "a" "a").ID →
      MainGo.parentCheck "repo" [Image.mk "a" "a", Image.mk "b" ""] =
        MainGo.parentCheck "repo" [Image.mk "b" ""]) ∧
     (MainGo.parentCheck "repo" [Image.mk "a" "a"] = [] ↔
      (Image.mk "a" "a").Parent = (Image.mk "a" "a").ID)) :=
  ⟨by decide, parentCheck_self_parent "repo" ⟨"a", "a"⟩ [⟨"b", ""⟩] (by decide)⟩

/-- The decoding loop records one image per history entry, namely the
value the unmarshal oracle leaves in the zero-initialized `im`. -/
theorem decodeImages_fst (dec : Decoder) (r : String) (es : List HistoryEntry) :
    (MainGo.decodeImages dec r es).1 = es.map (fun e => (dec e.V1Compatibility).1) := by
  induction es with
  | nil => rfl
  | cons e rest ih => simp [MainGo.decodeImages, ih]

/-- The decoding loop prints exactly one unmarshal finding per failing
entry, in history order. -/
theorem decodeImages_snd (dec : Decoder) (r : String) (es : List HistoryEntry) :
    (MainGo.decodeImages dec r es).2 =
      es.filterMap (fun e => ((dec e.V1Compatibility).2).map (unmarshalFinding r)) := by
  induction es with
  | nil => rfl
  | cons e rest ih =>
    rw [MainGo.decodeImages, List.filterMap_cons]
    cases hdec : (dec e.V1Compatibility).2 with
    | none => simp [hdec, ih]
    | some msg => simp [hdec, ih]

/-- C3: `checkManifest` always takes its single `return nil` exit: for
every decoder oracle, repository name and manifest it yields a finding
list and a `nil` error.  Moreover, under the hypothesis that a failing
unmarshal leaves the zero-initialized record untouched (the collaborator
behaviour the spec describes), every history entry — decodable or not —
contributes exactly one recorded image, a failing entry at index `j`
contributes the `json unmarshal error` finding and records the
empty-fields image, and decoding continues over all remaining entries
(the recorded image list always has the full history length). -/
theorem checkManifest_never_errors (dec : Decoder) (r : String) (m : SignedManifest)
    (hzero : ∀ s, ((dec s).2).isSome = true → (dec s).1 = Image.mk "" "") :
    (MainGo.checkManifest dec r m).2 = none ∧
    (MainGo.decodeImages dec r m.History).1.length = m.History.length ∧
    (∀ (j : Nat) (e : HistoryEntry) (msg : String), m.History[j]? = some e →
      (dec e.V1Compatibility).2 = some msg →
      unmarshalFinding r msg ∈ (MainGo.decodeImages dec r m.History).2 ∧
      ((MainGo.decodeImages dec r m.History).1)[j]? = some (Image.mk "" "")) := by
  refine ⟨rfl, by rw [decodeImages_fst]; simp, ?_⟩
  intro j e msg hj hmsg
  constructor
  · rw [decodeImages_snd]
    refine List.mem_filterMap.mpr ⟨e, ?_, ?_⟩
    · exact List.getElem?_mem hj
    · rw [hmsg]; rfl
  · rw [decodeImages_fst, List.getElem?_map, hj]
    simp [hzero e.V1Compatibility (by rw [hmsg]; rfl)]

/-- Witness for `checkManifest_never_errors`: a constantly failing
decoder on a one-entry manifest. -/
theorem checkManifest_never_errors_witness :
    (∀ s, ((((fun _ => (Image.mk "" "", some "bad")) : Decoder) s).2).isSome = true →
      (((fun _ => (Image.mk "" "", some "bad")) : Decoder) s).1 = Image.mk "" "") ∧
    ((MainGo.checkManifest (fun _ => (Image.mk "" "", some "bad")) "repo" ⟨["l"], [⟨"x"⟩]⟩).2 = none ∧
     (MainGo.decodeImages (fun _ => (Image.mk "" "", some "bad")) "repo"
        (SignedManifest.mk ["l"] [⟨"x"⟩]).History).1.length =
       (SignedManifest.mk ["l"] [⟨"x"⟩]).History.length ∧
     (∀ (j : Nat) (e : HistoryEntry) (msg : String),
        (SignedManifest.mk ["l"] [⟨"x"⟩]).History[j]? = some e →
        ((((fun _ => (Image.mk "" "", some "bad")) : Decoder) e.V1Compatibility)).2 = some msg →
        unmarshalFinding "repo" msg ∈
          (MainGo.decodeImages (fun _ => (Image.mk "" "", some "bad")) "repo"
            (SignedManifest.mk ["l"] [⟨"x"⟩]).History).2 ∧
        ((MainGo.decodeImages (fun _ => (Image.mk "" "", some "bad")) "repo"
            (SignedManifest.mk ["l"] [⟨"x"⟩]).History).1)[j]? = some (Image.mk "" ""))) :=
  ⟨fun _ _ => rfl,
    checkManifest_never_errors (fun _ => (Image.mk "" "", some "bad")) "repo"
      ⟨["l"], [⟨"x"⟩]⟩ (fun _ _ => rfl)⟩

/-- A strictly linear chain produces no parent findings. -/
theorem parentCheck_eq_nil_of_linearChain (r : String) :
    ∀ images : List Image, linearChain images = true → MainGo.parentCheck r images = [] := by
  intro images
  induction images with
  | nil => intro _; rfl
  | cons im rest ih =>
    intro hchain
    cases rest with
    | nil =>
      have hroot : im.Parent = "" := by
        have := hchain
        simp [linearChain] at this
        exact this
      simp [MainGo.parentCheck, hroot]
    | cons next rest' =>
      have hlink : im.Parent = next.ID ∧ linearChain (next :: rest') = true := by
        have := hchain
        simp [linearChain] at this
        exact this
      rw [parentCheck_cons, ih hlink.2, if_neg]
      · simp
      · intro ⟨_, hnex⟩
        exact hnex ⟨next, by simp, hlink.1.symm⟩

/-- C4: a manifest with equal non-zero layer and history counts, all
history entries decodable, and decoded images forming a strictly linear
chain yields an empty finding list from `checkManifest`. -/
theorem checkManifest_linear_chain_clean (dec : Decoder) (r : String) (m : SignedManifest)
    (hlen : m.FSLayers.length = m.History.length)
    (hne : m.History ≠ [])
    (hdec : ∀ e ∈ m.History, (dec e.V1Compatibility).2 = none)
    (hchain : linearChain ((MainGo.decodeImages dec r m.History).1) = true) :
    (MainGo.checkManifest dec r m).1 = [] := by
  have hh : m.History.length ≠ 0 := by
    intro h0
    exact hne (List.length_eq_zero.mp h0)
  have hf : m.FSLayers.length ≠ 0 := by rw [hlen]; exact hh
  rw [MainGo.checkManifest]
  rw [if_neg (by intro hor; rcases hor with h | h; exacts [hf h, hh h])]
  rw [if_neg (by intro hne2; exact hne2 hlen)]
  rw [decodeImages_snd]
  rw [List.filterMap_eq_nil_iff.mpr (fun e he => by rw [hdec e he]; rfl)]
  rw [parentCheck_eq_nil_of_linearChain r _ hchain]
  rfl

/-- Witness for `checkManifest_linear_chain_clean`: a two-layer,
two-entry manifest decoding to the chain `i1 → i2 → (root)`. -/
theorem checkManifest_linear_chain_clean_witness :
    ((SignedManifest.mk ["l1", "l2"] [⟨"x"⟩, ⟨"y"⟩]).FSLayers.length =
      (SignedManifest.mk ["l1", "l2"] [⟨"x"⟩, ⟨"y"⟩]).History.length) ∧
    ((SignedManifest.mk ["l1", "l2"] [⟨"x"⟩, ⟨"y"⟩]).History ≠ []) ∧
    (∀ e ∈ (SignedManifest.mk ["l1", "l2"] [⟨"x"⟩, ⟨"y"⟩]).History,
      ((((fun s => (if s = "x" then ⟨"i1", "i2"⟩ else ⟨"i2", ""⟩, none)) : Decoder)
        e.V1Compatibility)).2 = none) ∧
    (linearChain ((MainGo.decodeImages
        (fun s => (if s = "x" then ⟨"i1", "i2"⟩ else ⟨"i2", ""⟩, none)) "repo"
        (SignedManifest.mk ["l1", "l2"] [⟨"x"⟩, ⟨"y"⟩]).History).1) = true) ∧
    (MainGo.checkManifest (fun s => (if s = "x" then ⟨"i1", "i2"⟩ else ⟨"i2", ""⟩, none))
      "repo" (SignedManifest.mk ["l1", "l2"] [⟨"x"⟩, ⟨"y"⟩])).1 = [] :=
  ⟨by decide, by decide, by decide, by decide,
    checkManifest_linear_chain_clean
      (fun s => (if s = "x" then ⟨"i1", "i2"⟩ else ⟨"i2", ""⟩, none)) "repo"
      ⟨["l1", "l2"], [⟨"x"⟩, ⟨"y"⟩]⟩ (by decide) (by decide) (by decide) (by decide)⟩

/-- Appending on the left is cancellative for strings. -/
theorem string_append_cancel_left {r s t : String} (h : r ++ s = r ++ t) : s = t := by
  apply String.ext
  have hd := congrArg String.data h
  rw [String.data_append, String.data_append] at hd
  exact List.append_cancel_left hd

/-- A string whose third character differs from `t`'s third character is
not `t` followed by anything. -/
theorem ne_append_of_third_char (s t u : String) (hlen : 2 < t.data.length)
    (hne : t.data[2]? ≠ s.data[2]?) : s ≠ t ++ u := by
  intro h
  apply hne
  have hd := congrArg String.data h
  rw [String.data_append] at hd
  rw [hd, List.getElem?_append, if_pos hlen]

/-- Two findings about the same repository with different kind markers
(third character of the suffix) are distinct, even when one of them ends
in arbitrary text. -/
theorem finding_ne_of_suffix (r a t u : String) (hlen : 2 < t.data.length)
    (hne : t.data[2]? ≠ a.data[2]?) : r ++ a ≠ (r ++ t) ++ u := by
  intro h
  rw [String.append_assoc] at h
  exact ne_append_of_third_char a t u hlen hne (string_append_cancel_left h)

theorem noLayers_ne_mismatch (r : String) : noLayersFinding r ≠ mismatchFinding r := by
  intro h
  have := string_append_cancel_left h
  exact absurd this (by decide)

theorem noLayers_ne_unmarshal (r msg : String) : noLayersFinding r ≠ unmarshalFinding r msg :=
  finding_ne_of_suffix r ": no layers present" ": json unmarshal error: " msg
    (by decide) (by decide)

theorem noLayers_ne_parent (r p : String) : noLayersFinding r ≠ parentFinding r p := by
  have h := finding_ne_of_suffix r ": no layers present"
    ": parent not below in manifest (parent ID " (p ++ ")") (by decide) (by decide)
  intro hcontra
  exact h (hcontra.trans (String.append_assoc _ p ")"))

theorem mismatch_ne_unmarshal (r msg : String) : mismatchFinding r ≠ unmarshalFinding r msg :=
  finding_ne_of_suffix r ": mismatched layers and history" ": json unmarshal error: " msg
    (by decide) (by decide)

theorem mismatch_ne_parent (r p : String) : mismatchFinding r ≠ parentFinding r p := by
  have h := finding_ne_of_suffix r ": mismatched layers and history"
    ": parent not below in manifest (parent ID " (p ++ ")") (by decide) (by decide)
  intro hcontra
  exact h (hcontra.trans (String.append_assoc _ p ")"))

/-- Every line printed by the parent-link loop is a `parentFinding`. -/
theorem mem_parentCheck (r x : String) :
    ∀ images : List Image, x ∈ MainGo.parentCheck r images → ∃ p, x = parentFinding r p := by
  intro images
  induction images with
  | nil => intro hx; simp [MainGo.parentCheck] at hx
  | cons im rest ih =>
    intro hx
    rw [parentCheck_cons] at hx
    rcases List.mem_append.mp hx with h1 | h2
    · by_cases hc : im.Parent ≠ "" ∧ ¬ ∃ c ∈ im :: rest, c.ID = im.Parent
      · rw [if_pos hc] at h1
        simp at h1
        exact ⟨im.Parent, h1⟩
      · rw [if_neg hc] at h1
        simp at h1
    · exact ih h2

/-- Every line printed by the decoding loop is an `unmarshalFinding`. -/
theorem mem_decodeFindings (dec : Decoder) (r x : String) (es : List HistoryEntry) :
    x ∈ (MainGo.decodeImages dec r es).2 → ∃ msg, x = unmarshalFinding r msg := by
  rw [decodeImages_snd]
  intro hx
  rcases List.mem_filterMap.mp hx with ⟨e, _, he⟩
  rcases Option.map_eq_some'.mp he with ⟨msg, _, hmsg⟩
  exact ⟨msg, hmsg.symm⟩

/-- C5: `checkManifest` prints `no layers present` iff the layer count or
the history count is zero, and — independently — prints `mismatched
layers and history` iff the two counts differ; consequently a manifest
with no layers and no history entries gets the former finding but not the
latter. -/
theorem checkManifest_count_findings (dec : Decoder) (r : String) (m : SignedManifest) :
    (noLayersFinding r ∈ (MainGo.checkManifest dec r m).1 ↔
      (m.FSLayers.length = 0 ∨ m.History.length = 0)) ∧
    (mismatchFinding r ∈ (MainGo.checkManifest dec r m).1 ↔
      m.FSLayers.length ≠ m.History.length) ∧
    (m.FSLayers = [] → m.History = [] →
      noLayersFinding r ∈ (MainGo.checkManifest dec r m).1 ∧
      mismatchFinding r ∉ (MainGo.checkManifest dec r m).1) := by
  have hsplit : ∀ x, x ∈ (MainGo.checkManifest dec r m).1 ↔
      (x ∈ (if m.FSLayers.length = 0 ∨ m.History.length = 0 then [noLayersFinding r] else []) ∨
       x ∈ (if m.FSLayers.length ≠ m.History.length then [mismatchFinding r] else []) ∨
       x ∈ (MainGo.decodeImages dec r m.History).2 ∨
       x ∈ MainGo.parentCheck r (MainGo.decodeImages dec r m.History).1) := by
    intro x
    rw [MainGo.checkManifest]
    simp only [List.mem_append]
    tauto
  have hno : noLayersFinding r ∈ (MainGo.checkManifest dec r m).1 ↔
      (m.FSLayers.length = 0 ∨ m.History.length = 0) := by
    rw [hsplit]
    constructor
    · intro hx
      rcases hx with h1 | h2 | h3 | h4
      · by_cases hc : m.FSLayers.length = 0 ∨ m.History.length = 0
        · exact hc
        · rw [if_neg hc] at h1; simp at h1
      · by_cases hc : m.FSLayers.length ≠ m.History.length
        · rw [if_pos hc] at h2
          simp at h2
          exact absurd h2 (noLayers_ne_mismatch r)
        · rw [if_neg hc] at h2; simp at h2
      · rcases mem_decodeFindings dec r _ _ h3 with ⟨msg, hmsg⟩
        exact absurd hmsg (noLayers_ne_unmarshal r msg)
      · rcases mem_parentCheck r _ _ h4 with ⟨p, hp⟩
        exact absurd hp (noLayers_ne_parent r p)
    · intro hc
      exact Or.inl (by rw [if_pos hc]; simp)
  have hmis : mismatchFinding r ∈ (MainGo.checkManifest dec r m).1 ↔
      m.FSLayers.length ≠ m.History.length := by
    rw [hsplit]
    constructor
    · intro hx
      rcases hx with h1 | h2 | h3 | h4
      · by_cases hc : m.FSLayers.length = 0 ∨ m.History.length = 0
        · rw [if_pos hc] at h1
          simp at h1
          exact absurd h1.symm (noLayers_ne_mismatch r)
        · rw [if_neg hc] at h1; simp at h1
      · by_cases hc : m.FSLayers.length ≠ m.History.length
        · exact hc
        · rw [if_neg hc] at h2; simp at h2
      · rcases mem_decodeFindings dec r _ _ h3 with ⟨msg, hmsg⟩
        exact absurd hmsg (mismatch_ne_unmarshal r msg)
      · rcases mem_parentCheck r _ _ h4 with ⟨p, hp⟩
        exact absurd hp (mismatch_ne_parent r p)
    · intro hc
      exact Or.inr (Or.inl (by rw [if_pos hc]; simp))
  refine ⟨hno, hmis, fun hf hh => ?_⟩
  have h0f : m.FSLayers.length = 0 := by rw [hf]; rfl
  have h0h : m.History.length = 0 := by rw [hh]; rfl
  refine ⟨hno.mpr (Or.inl h0f), fun hmem => ?_⟩
  apply hmis.mp hmem
  rw [h0f, h0h]

/-- Witness for `checkManifest_count_findings`: the empty manifest. -/
theorem checkManifest_count_findings_witness :
    (noLayersFinding "repo" ∈
        (MainGo.checkManifest (fun _ => (Image.mk "" "", none)) "repo" ⟨[], []⟩).1 ↔
      ((SignedManifest.mk [] []).FSLayers.length = 0 ∨
        (SignedManifest.mk [] []).History.length = 0)) ∧
    (mismatchFinding "repo" ∈
        (MainGo.checkManifest (fun _ => (Image.mk "" "", none)) "repo" ⟨[], []⟩).1 ↔
      (SignedManifest.mk [] []).FSLayers.length ≠ (SignedManifest.mk [] []).History.length) ∧
    ((SignedManifest.mk [] []).FSLayers = [] → (SignedManifest.mk [] []).History = [] →
      noLayersFinding "repo" ∈
        (MainGo.checkManifest (fun _ => (Image.mk "" "", none)) "repo" ⟨[], []⟩).1 ∧
      mismatchFinding "repo" ∉
        (MainGo.checkManifest (fun _ => (Image.mk "" "", none)) "repo" ⟨[], []⟩).1) :=
  checkManifest_count_findings (fun _ => (Image.mk "" "", none)) "repo" ⟨[], []⟩

end ManifestCheck

namespace ManifestCheck

theorem part000_scanForParent_eq (p : String) :
    ∀ (cands : List Image) (init : String),
      Part000.scanForParent p cands init = MainGo.scanForParent p cands init := by
  intro cands
  induction cands with
  | nil => intro init; rfl
  | cons c rest ih =>
    intro init
    rw [Part000.scanForParent, MainGo.scanForParent, ih]

theorem part000_parentCheck_eq (r : String) :
    ∀ images : List Image, Part000.parentCheck r images = MainGo.parentCheck r images := by
  intro images
  induction images with
  | nil => rfl
  | cons im rest ih =>
    rw [Part000.parentCheck, MainGo.parentCheck, ih, part000_scanForParent_eq]

theorem part000_decodeImages_eq (dec : Decoder) (r : String) :
    ∀ es : List HistoryEntry,
      Part000.decodeImages dec r es = MainGo.decodeImages dec r es := by
  intro es
  induction es with
  | nil => rfl
  | cons e rest ih =>
    rw [Part000.decodeImages, MainGo.decodeImages, ih]

/-- C10: the two `checkManifest` functions — src/main.go lines 35-82 and
src/unnamed/part_000 lines 34-81 — are extensionally equal: on every
decoder oracle, repository name and manifest they print the identical
finding sequence and return the same `nil` error. -/
theorem checkManifest_equiv (dec : Decoder) (r : String) (m : SignedManifest) :
    MainGo.checkManifest dec r m = Part000.checkManifest dec r m := by
  rw [MainGo.checkManifest, Part000.checkManifest,
    part000_decodeImages_eq dec r m.History, part000_parentCheck_eq]

/-- C6: with no repos file, the registry is enumerated with a buffer of
length `maxRepos = 500000`; a non-`io.EOF` enumeration error panics the
process, a returned count of exactly `maxRepos` panics with
`too many repositories`, and a count strictly below the ceiling truncates
the buffer to that count and proceeds. -/
theorem resolveRepos_registry_behavior (enum : Nat → List String × Nat × Option GoError) :
    maxRepos = 500000 ∧
    (∀ msg : String, (enum maxRepos).2.2 = some (GoError.other msg) →
      resolveReposRegistry enum =
        Except.error ("unexpected error getting repo: " ++ msg)) ∧
    (((enum maxRepos).2.2 = none ∨ (enum maxRepos).2.2 = some GoError.eof) →
      (enum maxRepos).2.1 = maxRepos →
      resolveReposRegistry enum = Except.error "too many repositories") ∧
    (((enum maxRepos).2.2 = none ∨ (enum maxRepos).2.2 = some GoError.eof) →
      (enum maxRepos).2.1 < maxRepos →
      resolveReposRegistry enum =
        Except.ok ((enum maxRepos).1.take (enum maxRepos).2.1)) := by
  refine ⟨rfl, ?_, ?_, ?_⟩
  · intro msg hmsg
    unfold resolveReposRegistry
    rw [hmsg]
  · intro herr hn
    unfold resolveReposRegistry
    rcases herr with h | h
    · rw [h, if_pos hn]
    · rw [h, if_pos hn]
  · intro herr hn
    unfold resolveReposRegistry
    rcases herr with h | h
    · rw [h, if_neg (Nat.ne_of_lt hn)]
    · rw [h, if_neg (Nat.ne_of_lt hn)]

/-- Witness for `resolveRepos_registry_behavior`: the three enumeration
outcomes at concrete oracles. -/
theorem resolveRepos_registry_behavior_witness :
    ((enumErr maxRepos).2.2 = some (GoError.other "boom") ∧
      resolveReposRegistry enumErr =
        Except.error ("unexpected error getting repo: " ++ "boom")) ∧
    (((enumFull maxRepos).2.2 = none ∨ (enumFull maxRepos).2.2 = some GoError.eof) ∧
      (enumFull maxRepos).2.1 = maxRepos ∧
      resolveReposRegistry enumFull = Except.error "too many repositories") ∧
    (((enumOk maxRepos).2.2 = none ∨ (enumOk maxRepos).2.2 = some GoError.eof) ∧
      (enumOk maxRepos).2.1 < maxRepos ∧
      resolveReposRegistry enumOk =
        Except.ok ((enumOk maxRepos).1.take (enumOk maxRepos).2.1)) :=
  ⟨⟨rfl, (resolveRepos_registry_behavior enumErr).2.1 "boom" rfl⟩,
   ⟨Or.inl rfl, rfl,
    (resolveRepos_registry_behavior enumFull).2.2.1 (Or.inl rfl) rfl⟩,
   ⟨Or.inr rfl, by decide,
    (resolveRepos_registry_behavior enumOk).2.2.2 (Or.inr rfl) (by decide)⟩⟩

theorem string_data_length_pos_iff (l : String) : 0 < l.data.length ↔ l ≠ "" := by
  rw [List.length_pos]
  constructor
  · intro h heq
    subst heq
    exact h rfl
  · intro h hdata
    apply h
    apply String.ext
    rw [hdata]

/-- C7: with a repos file supplied, the resolved repository list is the
file's lines in order with every empty line removed and a single leading
`+` stripped from each remaining line (first conjunct); the file takes
precedence over registry enumeration, which is never consulted (second
conjunct); and a line `+name` is treated identically to the unprefixed
line `name` whenever `name` is the shape of a plain repository name
(non-empty and not itself starting with `+`). -/
theorem readReposList_spec (lines : List String)
    (enum : Nat → List String × Nat × Option GoError)
    (name : String) (rest : List String) :
    (readReposList lines = (lines.filter (fun l => !(l == ""))).map stripPlusByte) ∧
    (resolveRepos (some lines) enum = Except.ok (readReposList lines)) ∧
    (name.data ≠ [] → name.data.head? ≠ some '+' →
      readReposList (("+" ++ name) :: rest) = readReposList (name :: rest)) := by
  refine ⟨?_, rfl, ?_⟩
  · induction lines with
    | nil => rfl
    | cons l ls ih =>
      by_cases hl : l = ""
      · subst hl
        rw [readReposList, if_neg (by decide), ih, List.filter_cons,
          if_neg (by decide)]
      · rw [readReposList, if_pos ((string_data_length_pos_iff l).mpr hl), ih,
          List.filter_cons, if_pos (by simp [hl]), List.map_cons]
  · intro hne hhead
    have hdata : ("+" ++ name).data = '+' :: name.data := by
      rw [String.data_append]
      rfl
    have hs1 : stripPlusByte ("+" ++ name) = name := by
      unfold stripPlusByte
      rw [hdata]
      have hcond : ('+' :: name.data).head? = some '+' := rfl
      rw [if_pos hcond]
      rfl
    have hs2 : stripPlusByte name = name := by
      unfold stripPlusByte
      rw [if_neg hhead]
    rw [readReposList, readReposList, if_pos (by rw [hdata]; simp),
      if_pos (List.length_pos.mpr hne), hs1, hs2]

/-- Witness for `readReposList_spec`: the file `["+a", "", "b"]` and the
plus-equivalence at `name = "abc"`. -/
theorem readReposList_spec_witness :
    (readReposList ["+a", "", "b"] =
      ((["+a", "", "b"].filter (fun l => !(l == ""))).map stripPlusByte)) ∧
    (resolveRepos (some ["+a", "", "b"]) enumOk =
      Except.ok (readReposList ["+a", "", "b"])) ∧
    (("abc" : String).data ≠ [] ∧ ("abc" : String).data.head? ≠ some '+' ∧
      readReposList (("+" ++ "abc") :: ["z"]) = readReposList ("abc" :: ["z"])) :=
  ⟨(readReposList_spec ["+a", "", "b"] enumOk "abc" ["z"]).1,
   (readReposList_spec ["+a", "", "b"] enumOk "abc" ["z"]).2.1,
   ⟨by decide, by decide,
    (readReposList_spec ["+a", "", "b"] enumOk "abc" ["z"]).2.2 (by decide) (by decide)⟩⟩

/-- C8: a repos-file line consisting solely of `+` passes the
non-emptiness test (which is applied before the `+` strip), is stripped
to the empty string, and the empty repository name is appended to the
resolved list handed to the scan. -/
theorem readReposList_lone_plus (rest : List String)
    (enum : Nat → List String × Nat × Option GoError) :
    readReposList ("+" :: rest) = "" :: readReposList rest ∧
    resolveRepos (some ["+"]) enum = Except.ok [""] := by
  constructor
  · rw [readReposList, if_pos (by decide)]
    congr 1
  · rw [resolveRepos]
    congr 1

end ManifestCheck

namespace ManifestCheck

/-- C2 (amended): in the src/main.go scan, every repository in the
resolved list contributes its findings to stdout and its `checkRepo`
error, if any, to stderr, independently of every other repository's
outcome — so a per-repository failure is reported to the diagnostic
stream and never prevents the remaining repositories from being visited,
and the scan always completes (conjuncts 1-2).  An open failure or a
tag-list failure abandons that repository with the wrapped error
(conjuncts 3-4), and one tag's manifest-fetch failure abandons the
remaining tags of that repository (conjunct 5).  In src/unnamed/part_000
a per-repository error instead panics the process; see the
counterexample theorem. -/
theorem scanRepos_error_isolation (o : RegistryOracle) (dec : Decoder) (repos : List String) :
    ((MainGo.scanRepos o dec repos).1 =
      (repos.map (fun r => (MainGo.checkRepo o dec r).1)).flatten) ∧
    ((MainGo.scanRepos o dec repos).2 =
      repos.filterMap (fun r => (MainGo.checkRepo o dec r).2)) ∧
    (∀ r e : String, o.repository r = Except.error e →
      MainGo.checkRepo o dec r =
        ([], some ("unexpected error getting repository: " ++ e))) ∧
    (∀ r e : String, o.repository r = Except.ok () → o.manifests r = Except.ok () →
      o.tags r = Except.error e →
      MainGo.checkRepo o dec r =
        ([], some ("unexpected error getting tags: " ++ e))) ∧
    (∀ (r t : String) (rest : List String) (e : String), o.getByTag r t = Except.error e →
      MainGo.checkTags o dec r (t :: rest) =
        ([], some ("unexpected error getting manifest by tag: " ++ e))) := by
  refine ⟨?_, ?_, ?_, ?_, ?_⟩
  · induction repos with
    | nil => rfl
    | cons r rest ih => simp [MainGo.scanRepos, ih]
  · induction repos with
    | nil => rfl
    | cons r rest ih =>
      rw [List.filterMap_cons]
      cases h : (MainGo.checkRepo o dec r).2 with
      | none => simp [MainGo.scanRepos, h, ih]
      | some e => simp [MainGo.scanRepos, h, ih]
  · intro r e h
    unfold MainGo.checkRepo
    rw [h]
  · intro r e h1 h2 h3
    unfold MainGo.checkRepo
    rw [h1, h2, h3]
  · intro r t rest e h
    rw [MainGo.checkTags, h]

/-- Witness for `scanRepos_error_isolation`: the oracle failing on
repository `bad`, scanned over `[bad, good]`, plus a tag-fetch failure. -/
theorem scanRepos_error_isolation_witness :
    ((MainGo.scanRepos oFail decId ["bad", "good"]).2 =
      ["bad", "good"].filterMap (fun r => (MainGo.checkRepo oFail decId r).2)) ∧
    (oFail.repository "bad" = Except.error "boom" ∧
      MainGo.checkRepo oFail decId "bad" =
        ([], some ("unexpected error getting repository: " ++ "boom"))) ∧
    (oTagFail.getByTag "good" "t" = Except.error "gone" ∧
      MainGo.checkTags oTagFail decId "good" ("t" :: []) =
        ([], some ("unexpected error getting manifest by tag: " ++ "gone"))) :=
  ⟨(scanRepos_error_isolation oFail decId ["bad", "good"]).2.1,
   ⟨rfl, (scanRepos_error_isolation oFail decId []).2.2.1 "bad" "boom" rfl⟩,
   ⟨rfl, (scanRepos_error_isolation oTagFail decId []).2.2.2.2 "good" "t" [] "gone" rfl⟩⟩

/-- C2 counterexample, on src/unnamed/part_000's `main` (lines 179-183):
with repository `bad` failing to open and repository `good` healthy, the
part_000 scan of `[bad, good]` panics with the wrapped open error and
prints nothing — in particular the finding that visiting `good` would
print (third conjunct) never appears, so the claim that a per-repository
failure never terminates the overall scan and that every other
repository is still visited is false of that file. -/
theorem scanRepos_part000_terminates_on_error :
    (Part000.scanRepos oFail decId ["bad", "good"]).2 =
      some (GoPanic.panic ("unexpected error getting repository: " ++ "boom")) ∧
    (Part000.scanRepos oFail decId ["bad", "good"]).1 = [] ∧
    (Part000.checkRepo oFail decId "good").1 = [noLayersFinding "good"] := by
  refine ⟨rfl, rfl, rfl⟩

end ManifestCheck
